import Mathlib

/-!
Verification of the certifii field-geometry and text-layout engine.

The definitions below are a shallow embedding of the core logic found in
the two main interactive components of the repository: the certificate
generator (`calculateTextWidth`, `getEffectiveWidth`, `updateField`,
`handleMouseMove`, `generateCertificateImage`, `generateAllCertificates`,
`renderPreview`, `renderEditOverlay`) and the field designer
(`getDummyText`, `calculateTextWidth`, `getEffectiveWidth`, `updateField`,
`handleMouseMove`).  JavaScript numbers are modelled as rationals, the
browser text-measurement primitive (`ctx.measureText`) as an abstract
measurement function passed as a parameter, and data rows as association
lists from column name to string value.
-/

namespace Certifii

/-- Horizontal text alignment, the `align` field of a text field. -/
inductive Align where
  | left
  | center
  | right
deriving DecidableEq, Repr

/-- The `TextField` entity of the data model (types.ts). -/
structure TextField where
  id : String
  label : String
  x : ℚ
  y : ℚ
  width : ℚ
  height : ℚ
  fontSize : ℚ
  fontFamily : String
  color : String
  align : Align
  autoWidth : Bool
deriving DecidableEq, Repr

/-- The `Template` entity: only its native pixel dimensions matter to the
geometry engine (the image bytes and URL are opaque). -/
structure Template where
  width : ℚ
  height : ℚ
deriving DecidableEq, Repr

/-- A `CertificateData` row: a flat map from column name to string value,
modelled as an association list.  `rowGet` mirrors the JavaScript read
`certificateData[label] || ''`. -/
def Row := List (String × String)

/-- JavaScript `certificateData[key] || ''`: a missing key and an empty
value both yield the empty string. -/
def rowGet (row : Row) (key : String) : String :=
  match List.lookup key row with
  | some v => v
  | none => ""

/-- The browser's text-measurement primitive `ctx.measureText(text).width`
after `ctx.font` has been set from a font size and family.  It is external
to the repository, so it is kept abstract: every definition that measures
text takes one of these as a parameter. -/
def MeasureFn := String → ℚ → String → ℚ

/-- `calculateTextWidth` (generator and designer, identical code):
`Math.ceil(metrics.width) + 20`. -/
def calculateTextWidth (m : MeasureFn) (text : String) (fontSize : ℚ)
    (fontFamily : String) : ℚ :=
  ((⌈m text fontSize fontFamily⌉ : ℤ) : ℚ) + 20

/-- `getEffectiveWidth` of the certificate generator: when `autoWidth` is
set and a data row is available and the bound text is non-empty, measure
the text; otherwise fall back to the stored `width`. -/
def getEffectiveWidth (m : MeasureFn) (field : TextField)
    (certificateData : Option Row) : ℚ :=
  match certificateData with
  | some row =>
      if field.autoWidth then
        let text := rowGet row field.label
        if text ≠ "" then
          calculateTextWidth m text field.fontSize field.fontFamily
        else field.width
      else field.width
  | none => field.width

/-- JavaScript substring test `s.includes(pat)` for a non-empty pattern,
expressed through `String.splitOn`: the pattern occurs iff splitting on it
produces more than one part. -/
def strIncludes (s pat : String) : Bool :=
  (s.splitOn pat).length ≠ 1

/-- `getDummyText` of the field designer: placeholder preview text chosen
from the field label. -/
def getDummyText (label : String) : String :=
  let lowerLabel := label.toLower
  if strIncludes lowerLabel "name" then "John Smith"
  else if strIncludes lowerLabel "course" then "Web Development"
  else if strIncludes lowerLabel "date" then "2024-01-15"
  else if strIncludes lowerLabel "grade" then "A+"
  else if strIncludes lowerLabel "instructor" then "Dr. Johnson"
  else if strIncludes lowerLabel "institution" then "Tech Academy"
  else if strIncludes lowerLabel "score" then "95%"
  else if strIncludes lowerLabel "duration" then "6 months"
  else if strIncludes lowerLabel "certificate" then "Certificate of Completion"
  else "Sample Text"

/-- `getEffectiveWidth` of the field designer: auto-width fields measure
the dummy placeholder text, others use the stored `width`. -/
def getEffectiveWidthD (m : MeasureFn) (field : TextField) : ℚ :=
  if field.autoWidth then
    calculateTextWidth m (getDummyText field.label) field.fontSize field.fontFamily
  else field.width

/-- The text-draw x anchor computed inside `generateCertificateImage`:
`let x = field.x; if center, x = field.x + effectiveWidth / 2; if right,
x = field.x + effectiveWidth`. -/
def anchorXExport (field : TextField) (effectiveWidth : ℚ) : ℚ :=
  match field.align with
  | Align.left => field.x
  | Align.center => field.x + effectiveWidth / 2
  | Align.right => field.x + effectiveWidth

/-- The text-draw y anchor computed inside `generateCertificateImage`:
`field.y + field.height / 2 + field.fontSize / 3`. -/
def anchorYExport (field : TextField) : ℚ :=
  field.y + field.height / 2 + field.fontSize / 3

/-- The text-draw x anchor computed inside `renderPreview` (textually the
same branch structure as the export path). -/
def anchorXPreview (field : TextField) (effectiveWidth : ℚ) : ℚ :=
  match field.align with
  | Align.left => field.x
  | Align.center => field.x + effectiveWidth / 2
  | Align.right => field.x + effectiveWidth

/-- The text-draw y anchor computed inside `renderPreview`. -/
def anchorYPreview (field : TextField) : ℚ :=
  field.y + field.height / 2 + field.fontSize / 3

end Certifii

namespace Certifii

/-- C6: `calculateTextWidth` returns the measured width plus the fixed
padding 20, rounded up to an integer: it is an integer, lies in
`[measured + 20, measured + 21)`, is at least 20 when the measurement is
non-negative, and on a zero-width measurement (the empty string in a real
browser) it returns exactly the padding 20. -/
theorem calculateTextWidth_spec (m : MeasureFn) (text : String) (fontSize : ℚ)
    (fontFamily : String) :
    calculateTextWidth m text fontSize fontFamily
      = ((⌈m text fontSize fontFamily⌉ : ℤ) : ℚ) + 20 ∧
    m text fontSize fontFamily + 20 ≤ calculateTextWidth m text fontSize fontFamily ∧
    calculateTextWidth m text fontSize fontFamily < m text fontSize fontFamily + 21 ∧
    (0 ≤ m text fontSize fontFamily →
      20 ≤ calculateTextWidth m text fontSize fontFamily) ∧
    (m text fontSize fontFamily = 0 →
      calculateTextWidth m text fontSize fontFamily = 20) := by
  refine ⟨rfl, ?_, ?_, ?_, ?_⟩
  · have h := Int.le_ceil (m text fontSize fontFamily)
    unfold calculateTextWidth
    linarith
  · have h := Int.ceil_lt_add_one (m text fontSize fontFamily)
    unfold calculateTextWidth
    linarith
  · intro h0
    have h := Int.le_ceil (m text fontSize fontFamily)
    unfold calculateTextWidth
    linarith
  · intro h0
    unfold calculateTextWidth
    rw [h0]
    norm_num

/-- C6 witness: the measurement function that returns the rational 3/2 on
every input gives width `⌈3/2⌉ + 20 = 22`, and the zero measurement gives
the padding-only width 20. -/
theorem calculateTextWidth_spec_witness :
    calculateTextWidth (fun _ _ _ => (3 : ℚ) / 2) "Ann" 24 "Arial" = 22 ∧
    (0 : ℚ) ≤ 3 / 2 ∧
    20 ≤ calculateTextWidth (fun _ _ _ => (3 : ℚ) / 2) "Ann" 24 "Arial" ∧
    calculateTextWidth (fun _ _ _ => (0 : ℚ)) "" 24 "Arial" = 20 := by
  have h := calculateTextWidth_spec (fun _ _ _ => (3 : ℚ) / 2) "Ann" 24 "Arial"
  have hceil : (⌈(3 : ℚ) / 2⌉ : ℤ) = 2 := by norm_num [Int.ceil_eq_iff]
  refine ⟨?_, by norm_num, h.2.2.2.1 (by norm_num), ?_⟩
  · rw [h.1, hceil]
    norm_num
  · exact (calculateTextWidth_spec (fun _ _ _ => (0 : ℚ)) "" 24 "Arial").2.2.2.2 rfl

end Certifii

namespace Certifii

/-- A measurement function that reports width 0 for every text. -/
def mZero : MeasureFn := fun _ _ _ => 0

/-- A measurement function that reports width 42 for every text. -/
def m42 : MeasureFn := fun _ _ _ => 42

/-- The concrete field of the end-to-end scenario in the spec:
`{label:"Name", x:100, y:100, width:300, height:40, fontSize:24,
align:'center', autoWidth:false}`. -/
def fieldName : TextField :=
  ⟨"f1", "Name", 100, 100, 300, 40, 24, "Arial", "#000000", Align.center, false⟩

/-- A left-aligned auto-width variant of `fieldName`. -/
def fieldAuto : TextField :=
  ⟨"f2", "Name", 100, 100, 300, 40, 24, "Arial", "#000000", Align.left, true⟩

/-- A data row binding the `Name` column to `Ann`. -/
def rowAnn : Row := [("Name", "Ann")]

/-- C1: the generator's `getEffectiveWidth` returns the stored `width`
whenever `autoWidth` is off, no row is bound, or the bound text is empty,
and returns the text-metrics measurement (measured width rounded up, plus
the 20-pixel padding) whenever `autoWidth` is on and the bound text is
non-empty. -/
theorem getEffectiveWidth_spec (m : MeasureFn) (field : TextField) :
    (∀ certificateData : Option Row, field.autoWidth = false →
      getEffectiveWidth m field certificateData = field.width) ∧
    getEffectiveWidth m field none = field.width ∧
    (∀ row : Row, rowGet row field.label = "" →
      getEffectiveWidth m field (some row) = field.width) ∧
    (∀ row : Row, field.autoWidth = true → rowGet row field.label ≠ "" →
      getEffectiveWidth m field (some row)
        = ((⌈m (rowGet row field.label) field.fontSize field.fontFamily⌉ : ℤ) : ℚ)
            + 20) := by
  refine ⟨?_, rfl, ?_, ?_⟩
  · intro certificateData h
    cases certificateData with
    | none => rfl
    | some row => simp [getEffectiveWidth, h]
  · intro row h
    simp [getEffectiveWidth, h]
  · intro row hauto hne
    simp [getEffectiveWidth, hauto, hne, calculateTextWidth]

/-- C1 witness: a manual-width field keeps width 300 whatever text is
bound; an auto-width field bound to the non-empty text `Ann` under the
constant-42 measurement gets width `⌈42⌉ + 20 = 62`, and keeps width 300
when no row or an empty value is bound. -/
theorem getEffectiveWidth_spec_witness :
    getEffectiveWidth m42 fieldName (some rowAnn) = 300 ∧
    getEffectiveWidth m42 fieldAuto none = 300 ∧
    getEffectiveWidth m42 fieldAuto (some [("Name", "")]) = 300 ∧
    getEffectiveWidth m42 fieldAuto (some rowAnn) = 62 := by
  refine ⟨(getEffectiveWidth_spec m42 fieldName).1 (some rowAnn) rfl,
    (getEffectiveWidth_spec m42 fieldAuto).2.1,
    (getEffectiveWidth_spec m42 fieldAuto).2.2.1 [("Name", "")] (by decide),
    ?_⟩
  have h := (getEffectiveWidth_spec m42 fieldAuto).2.2.2 rowAnn rfl (by decide)
  rw [h]
  norm_num [m42]

/-- C2: the text-draw anchor is `field.x` for left alignment,
`field.x + effectiveWidth / 2` for center, `field.x + effectiveWidth`
for right, and the y anchor is `field.y + field.height / 2 +
field.fontSize / 3`; the preview render computes exactly the same
anchors as the export render. -/
theorem anchor_spec (field : TextField) (effectiveWidth : ℚ) :
    (field.align = Align.left →
      anchorXExport field effectiveWidth = field.x) ∧
    (field.align = Align.center →
      anchorXExport field effectiveWidth = field.x + effectiveWidth / 2) ∧
    (field.align = Align.right →
      anchorXExport field effectiveWidth = field.x + effectiveWidth) ∧
    anchorYExport field = field.y + field.height / 2 + field.fontSize / 3 ∧
    anchorXPreview field effectiveWidth = anchorXExport field effectiveWidth ∧
    anchorYPreview field = anchorYExport field := by
  refine ⟨?_, ?_, ?_, rfl, ?_, rfl⟩ <;>
    first
      | (intro h; simp [anchorXExport, h])
      | (cases hal : field.align <;> simp [anchorXExport, anchorXPreview, hal])

/-- C2 witness: with `field.x = 100` and `effectiveWidth = 50`, the
center-aligned field `fieldName` anchors at x = 125, and its y anchor is
`100 + 40/2 + 24/3 = 128`; left and right variants anchor at 100 and 150. -/
theorem anchor_spec_witness :
    anchorXExport fieldName 50 = 125 ∧
    anchorXExport fieldAuto 50 = 100 ∧
    anchorXExport ⟨"f3", "Name", 100, 100, 300, 40, 24, "Arial", "#000000",
      Align.right, false⟩ 50 = 150 ∧
    anchorYExport fieldName = 128 ∧
    anchorXPreview fieldName 50 = anchorXExport fieldName 50 := by
  have hc := (anchor_spec fieldName 50).2.1 rfl
  have hl := (anchor_spec fieldAuto 50).1 rfl
  have hr := (anchor_spec ⟨"f3", "Name", 100, 100, 300, 40, 24, "Arial",
    "#000000", Align.right, false⟩ 50).2.2.1 rfl
  have hy := (anchor_spec fieldName 50).2.2.2.1
  refine ⟨?_, ?_, ?_, ?_, (anchor_spec fieldName 50).2.2.2.2.1⟩
  · rw [hc]; norm_num [fieldName]
  · rw [hl]; norm_num [fieldAuto]
  · rw [hr]; norm_num
  · rw [hy]; norm_num [fieldName]

end Certifii

namespace Certifii

/-- A partial update of a `TextField` (`Partial<TextField>` without the
`id` key, which no caller ever places in a patch): present entries
override the field's current values. -/
structure Patch where
  label : Option String
  x : Option ℚ
  y : Option ℚ
  width : Option ℚ
  height : Option ℚ
  fontSize : Option ℚ
  fontFamily : Option String
  color : Option String
  align : Option Align
  autoWidth : Option Bool
deriving DecidableEq, Repr

/-- The patch `{ autoWidth: b }`. -/
def patchAutoWidth (b : Bool) : Patch :=
  ⟨none, none, none, none, none, none, none, none, none, some b⟩

/-- The patch `{ x, y }` sent by the drag handler. -/
def patchXY (x y : ℚ) : Patch :=
  ⟨none, some x, some y, none, none, none, none, none, none, none⟩

/-- The patch `{ fontSize: v }`. -/
def patchFontSize (v : ℚ) : Patch :=
  ⟨none, none, none, none, none, some v, none, none, none, none⟩

/-- The patch `{ label: s }`. -/
def patchLabel (s : String) : Patch :=
  ⟨some s, none, none, none, none, none, none, none, none, none⟩

/-- JavaScript object spread `{ ...field, ...updates }`: every key present
in the patch overrides the field's value; `id` is never in a patch. -/
def applyPatch (field : TextField) (p : Patch) : TextField :=
  ⟨field.id, p.label.getD field.label, p.x.getD field.x, p.y.getD field.y,
   p.width.getD field.width, p.height.getD field.height,
   p.fontSize.getD field.fontSize, p.fontFamily.getD field.fontFamily,
   p.color.getD field.color, p.align.getD field.align,
   p.autoWidth.getD field.autoWidth⟩

/-- The JavaScript assignment `updatedField.width = w`. -/
def setWidth (field : TextField) (w : ℚ) : TextField :=
  ⟨field.id, field.label, field.x, field.y, w, field.height, field.fontSize,
   field.fontFamily, field.color, field.align, field.autoWidth⟩

/-- JavaScript truthiness of an optional number (`undefined` and `0` are
falsy). -/
def truthyQ : Option ℚ → Bool
  | none => false
  | some v => decide (v ≠ 0)

/-- JavaScript truthiness of an optional string (`undefined` and the empty
string are falsy). -/
def truthyS : Option String → Bool
  | none => false
  | some s => decide (s ≠ "")

/-- First recompute block of the generator's `updateField`: if the patch
sets `autoWidth` to `true` and a preview row exists and the row's value
for the (patched) label is non-empty, store the measured width. -/
def recompute1G (m : MeasureFn) (data : List Row) (previewIndex : ℕ)
    (updates : Patch) (u : TextField) : TextField :=
  match updates.autoWidth, data[previewIndex]? with
  | some true, some row =>
      let text := rowGet row u.label
      if text ≠ "" then
        setWidth u (calculateTextWidth m text u.fontSize u.fontFamily)
      else u
  | _, _ => u

/-- Second recompute block of the generator's `updateField`: if the field
is (now) auto-width and the patch has a truthy `fontSize`, `fontFamily`
or `label`, and the preview row's value for the label is non-empty, store
the measured width. -/
def recompute2G (m : MeasureFn) (data : List Row) (previewIndex : ℕ)
    (updates : Patch) (u : TextField) : TextField :=
  if u.autoWidth
      && (truthyQ updates.fontSize || truthyS updates.fontFamily
          || truthyS updates.label) then
    match data[previewIndex]? with
    | some row =>
        let text := rowGet row u.label
        if text ≠ "" then
          setWidth u (calculateTextWidth m text u.fontSize u.fontFamily)
        else u
    | none => u
  else u

/-- Per-field body of the generator's `updateField` map: patch the matching
field, then run the two recompute blocks in order. -/
def updateOneG (m : MeasureFn) (data : List Row) (previewIndex : ℕ)
    (id : String) (updates : Patch) (field : TextField) : TextField :=
  if field.id = id then
    recompute2G m data previewIndex updates
      (recompute1G m data previewIndex updates (applyPatch field updates))
  else field

/-- The certificate generator's `updateField`: map the per-field body over
the collection. -/
def updateFieldG (m : MeasureFn) (data : List Row) (previewIndex : ℕ)
    (fields : List TextField) (id : String) (updates : Patch) :
    List TextField :=
  fields.map (updateOneG m data previewIndex id updates)

/-- First recompute block of the designer's `updateField`: if the patch
sets `autoWidth` to `true`, store the width measured on the dummy
placeholder text (no emptiness guard: the placeholder is never empty). -/
def recompute1D (m : MeasureFn) (updates : Patch) (u : TextField) :
    TextField :=
  if updates.autoWidth = some true then
    setWidth u (calculateTextWidth m (getDummyText u.label) u.fontSize u.fontFamily)
  else u

/-- Second recompute block of the designer's `updateField`. -/
def recompute2D (m : MeasureFn) (updates : Patch) (u : TextField) :
    TextField :=
  if u.autoWidth
      && (truthyQ updates.fontSize || truthyS updates.fontFamily
          || truthyS updates.label) then
    setWidth u (calculateTextWidth m (getDummyText u.label) u.fontSize u.fontFamily)
  else u

/-- Per-field body of the designer's `updateField` map. -/
def updateOneD (m : MeasureFn) (id : String) (updates : Patch)
    (field : TextField) : TextField :=
  if field.id = id then
    recompute2D m updates (recompute1D m updates (applyPatch field updates))
  else field

/-- The field designer's `updateField`. -/
def updateFieldD (m : MeasureFn) (fields : List TextField) (id : String)
    (updates : Patch) : List TextField :=
  fields.map (updateOneD m id updates)

@[simp]
theorem setWidth_id (f : TextField) (w : ℚ) : (setWidth f w).id = f.id := rfl

@[simp]
theorem setWidth_label (f : TextField) (w : ℚ) :
    (setWidth f w).label = f.label := rfl

@[simp]
theorem setWidth_fontSize (f : TextField) (w : ℚ) :
    (setWidth f w).fontSize = f.fontSize := rfl

@[simp]
theorem setWidth_fontFamily (f : TextField) (w : ℚ) :
    (setWidth f w).fontFamily = f.fontFamily := rfl

@[simp]
theorem setWidth_autoWidth (f : TextField) (w : ℚ) :
    (setWidth f w).autoWidth = f.autoWidth := rfl

@[simp]
theorem setWidth_width (f : TextField) (w : ℚ) : (setWidth f w).width = w := rfl

@[simp]
theorem setWidth_x (f : TextField) (w : ℚ) : (setWidth f w).x = f.x := rfl

@[simp]
theorem setWidth_y (f : TextField) (w : ℚ) : (setWidth f w).y = f.y := rfl

@[simp]
theorem applyPatch_id (f : TextField) (p : Patch) :
    (applyPatch f p).id = f.id := rfl

theorem recompute1G_id (m : MeasureFn) (data : List Row) (previewIndex : ℕ)
    (updates : Patch) (u : TextField) :
    (recompute1G m data previewIndex updates u).id = u.id := by
  unfold recompute1G
  split
  · dsimp only
    split <;> rfl
  · rfl

theorem recompute2G_id (m : MeasureFn) (data : List Row) (previewIndex : ℕ)
    (updates : Patch) (u : TextField) :
    (recompute2G m data previewIndex updates u).id = u.id := by
  unfold recompute2G
  split
  · split
    · dsimp only
      split <;> rfl
    · rfl
  · rfl

theorem recompute1D_id (m : MeasureFn) (updates : Patch) (u : TextField) :
    (recompute1D m updates u).id = u.id := by
  unfold recompute1D
  split <;> rfl

theorem recompute2D_id (m : MeasureFn) (updates : Patch) (u : TextField) :
    (recompute2D m updates u).id = u.id := by
  unfold recompute2D
  split <;> rfl

theorem updateOneG_id (m : MeasureFn) (data : List Row) (previewIndex : ℕ)
    (id : String) (updates : Patch) (field : TextField) :
    (updateOneG m data previewIndex id updates field).id = field.id := by
  unfold updateOneG
  split
  · rw [recompute2G_id, recompute1G_id, applyPatch_id]
  · rfl

theorem updateOneD_id (m : MeasureFn) (id : String) (updates : Patch)
    (field : TextField) :
    (updateOneD m id updates field).id = field.id := by
  unfold updateOneD
  split
  · rw [recompute2D_id, recompute1D_id, applyPatch_id]
  · rfl

theorem updateOneG_ne (m : MeasureFn) (data : List Row) (previewIndex : ℕ)
    (id : String) (updates : Patch) (field : TextField)
    (h : field.id ≠ id) :
    updateOneG m data previewIndex id updates field = field := by
  unfold updateOneG
  simp [h]

theorem updateOneD_ne (m : MeasureFn) (id : String) (updates : Patch)
    (field : TextField) (h : field.id ≠ id) :
    updateOneD m id updates field = field := by
  unfold updateOneD
  simp [h]

end Certifii

namespace Certifii

/-- C10: both `updateField` implementations preserve the collection's
length and order, leave every field with a different id untouched, never
change any field's id, and leave the whole collection unchanged when no
field carries the target id. -/
theorem updateField_frame (m : MeasureFn) (data : List Row) (previewIndex : ℕ)
    (fields : List TextField) (id : String) (updates : Patch) :
    (updateFieldG m data previewIndex fields id updates).length = fields.length ∧
    (∀ (i : ℕ) (f : TextField), fields[i]? = some f → f.id ≠ id →
      (updateFieldG m data previewIndex fields id updates)[i]? = some f) ∧
    (∀ (i : ℕ) (f : TextField), fields[i]? = some f →
      ∃ f', (updateFieldG m data previewIndex fields id updates)[i]? = some f'
        ∧ f'.id = f.id) ∧
    ((∀ f ∈ fields, f.id ≠ id) →
      updateFieldG m data previewIndex fields id updates = fields) ∧
    (updateFieldD m fields id updates).length = fields.length ∧
    (∀ (i : ℕ) (f : TextField), fields[i]? = some f → f.id ≠ id →
      (updateFieldD m fields id updates)[i]? = some f) ∧
    (∀ (i : ℕ) (f : TextField), fields[i]? = some f →
      ∃ f', (updateFieldD m fields id updates)[i]? = some f' ∧ f'.id = f.id) ∧
    ((∀ f ∈ fields, f.id ≠ id) → updateFieldD m fields id updates = fields) := by
  refine ⟨List.length_map _ _, ?_, ?_, ?_, List.length_map _ _, ?_, ?_, ?_⟩
  · intro i f hf hne
    rw [updateFieldG, List.getElem?_map, hf, Option.map_some']
    rw [updateOneG_ne m data previewIndex id updates f hne]
  · intro i f hf
    refine ⟨updateOneG m data previewIndex id updates f, ?_,
      updateOneG_id m data previewIndex id updates f⟩
    rw [updateFieldG, List.getElem?_map, hf, Option.map_some']
  · intro h
    have hcongr : fields.map (updateOneG m data previewIndex id updates)
        = fields.map (fun f => f) :=
      List.map_congr_left fun f hf =>
        updateOneG_ne m data previewIndex id updates f (h f hf)
    rw [updateFieldG, hcongr, List.map_id']
  · intro i f hf hne
    rw [updateFieldD, List.getElem?_map, hf, Option.map_some']
    rw [updateOneD_ne m id updates f hne]
  · intro i f hf
    refine ⟨updateOneD m id updates f, ?_, updateOneD_id m id updates f⟩
    rw [updateFieldD, List.getElem?_map, hf, Option.map_some']
  · intro h
    have hcongr : fields.map (updateOneD m id updates)
        = fields.map (fun f => f) :=
      List.map_congr_left fun f hf => updateOneD_ne m id updates f (h f hf)
    rw [updateFieldD, hcongr, List.map_id']

/-- C10 witness: patching the second of two fields leaves the first
untouched, keeps both collections at length 2 and all ids in place, and a
patch addressed to an absent id changes nothing. -/
theorem updateField_frame_witness :
    (updateFieldG m42 [rowAnn] 0 [fieldName, fieldAuto] "f2"
      (patchFontSize 30)).length = 2 ∧
    (updateFieldG m42 [rowAnn] 0 [fieldName, fieldAuto] "f2"
      (patchFontSize 30))[0]? = some fieldName ∧
    (∃ f', (updateFieldG m42 [rowAnn] 0 [fieldName, fieldAuto] "f2"
      (patchFontSize 30))[1]? = some f' ∧ f'.id = fieldAuto.id) ∧
    updateFieldD m42 [fieldName] "absent" (patchFontSize 30) = [fieldName] := by
  have h := updateField_frame m42 [rowAnn] 0 [fieldName, fieldAuto] "f2"
    (patchFontSize 30)
  have h2 := updateField_frame m42 [rowAnn] 0 [fieldName] "absent"
    (patchFontSize 30)
  refine ⟨h.1, h.2.1 0 fieldName rfl (by decide), h.2.2.1 1 fieldAuto rfl, ?_⟩
  refine h2.2.2.2.2.2.2.2 ?_
  intro f hf
  have : f = fieldName := by simpa using hf
  rw [this]
  decide

end Certifii

namespace Certifii

theorem recompute1G_cases (m : MeasureFn) (data : List Row) (previewIndex : ℕ)
    (updates : Patch) (u : TextField) :
    recompute1G m data previewIndex updates u = u ∨
    ∃ w, recompute1G m data previewIndex updates u = setWidth u w := by
  unfold recompute1G
  split
  · dsimp only
    split
    · exact Or.inr ⟨_, rfl⟩
    · exact Or.inl rfl
  · exact Or.inl rfl

theorem recompute1D_cases (m : MeasureFn) (updates : Patch) (u : TextField) :
    recompute1D m updates u = u ∨
    ∃ w, recompute1D m updates u = setWidth u w := by
  unfold recompute1D
  split
  · exact Or.inr ⟨_, rfl⟩
  · exact Or.inl rfl

theorem recompute2G_fires (m : MeasureFn) (data : List Row) (previewIndex : ℕ)
    (updates : Patch) (u : TextField) (row : Row)
    (hau : u.autoWidth = true)
    (htr : (truthyQ updates.fontSize || truthyS updates.fontFamily
        || truthyS updates.label) = true)
    (hrow : data[previewIndex]? = some row)
    (hne : rowGet row u.label ≠ "") :
    recompute2G m data previewIndex updates u
      = setWidth u (calculateTextWidth m (rowGet row u.label)
          u.fontSize u.fontFamily) := by
  unfold recompute2G
  rw [hau, htr]
  simp only [Bool.and_self, if_true, hrow]
  simp [hne]

theorem recompute2G_empty (m : MeasureFn) (data : List Row) (previewIndex : ℕ)
    (updates : Patch) (u : TextField)
    (hempty : ∀ row, data[previewIndex]? = some row → rowGet row u.label = "") :
    recompute2G m data previewIndex updates u = u := by
  unfold recompute2G
  split
  · split
    · next row heq =>
        dsimp only
        simp [hempty row heq]
    · rfl
  · rfl

theorem recompute1G_empty (m : MeasureFn) (data : List Row) (previewIndex : ℕ)
    (updates : Patch) (u : TextField)
    (hempty : ∀ row, data[previewIndex]? = some row → rowGet row u.label = "") :
    recompute1G m data previewIndex updates u = u := by
  unfold recompute1G
  split
  · next heq1 heq2 =>
      dsimp only
      simp [hempty _ heq2]
  · rfl

theorem recompute2D_cases (m : MeasureFn) (updates : Patch) (u : TextField) :
    recompute2D m updates u = u ∨
    recompute2D m updates u
      = setWidth u (calculateTextWidth m (getDummyText u.label)
          u.fontSize u.fontFamily) := by
  unfold recompute2D
  split
  · exact Or.inr rfl
  · exact Or.inl rfl

theorem recompute2D_fires (m : MeasureFn) (updates : Patch) (u : TextField)
    (hau : u.autoWidth = true)
    (htr : (truthyQ updates.fontSize || truthyS updates.fontFamily
        || truthyS updates.label) = true) :
    recompute2D m updates u
      = setWidth u (calculateTextWidth m (getDummyText u.label)
          u.fontSize u.fontFamily) := by
  unfold recompute2D
  rw [hau, htr]
  simp

theorem applyPatch_autoWidth_true (field : TextField) (updates : Patch)
    (hw : updates.autoWidth = some true) :
    (applyPatch field updates).autoWidth = true := by
  simp [applyPatch, hw]

/-- C3 counterexample: enabling `autoWidth` on a field whose label has no
(non-empty) value in the live preview row does NOT recompute the stored
width.  With the zero measurement, a field of width 300 and label `Name`
patched with `{autoWidth: true}` against the row `{Other: "x"}` keeps width
300, whereas a recompute from the binding's (empty) text would have stored
`⌈0⌉ + 20 = 20`. -/
theorem updateField_recompute_counterexample :
    updateFieldG mZero [[("Other", "x")]] 0 [fieldName] "f1"
        (patchAutoWidth true)
      = [⟨"f1", "Name", 100, 100, 300, 40, 24, "Arial", "#000000",
          Align.center, true⟩] ∧
    rowGet [("Other", "x")] "Name" = "" ∧
    calculateTextWidth mZero "" 24 "Arial" = 20 ∧
    (300 : ℚ) ≠ 20 := by
  refine ⟨rfl, rfl, ?_, by norm_num⟩
  show ((⌈(0 : ℚ)⌉ : ℤ) : ℚ) + 20 = 20
  norm_num

end Certifii

namespace Certifii

theorem recompute2G_skip (m : MeasureFn) (data : List Row) (previewIndex : ℕ)
    (updates : Patch) (u : TextField)
    (htr : (truthyQ updates.fontSize || truthyS updates.fontFamily
        || truthyS updates.label) = false) :
    recompute2G m data previewIndex updates u = u := by
  unfold recompute2G
  rw [htr]
  simp

/-- C3 (amended): `updateField` recomputes and persists the width exactly
when the recompute inputs resolve to a non-empty text.  In the generator:
a patch setting `autoWidth` to true, or a truthy edit of
`fontSize`/`fontFamily`/`label` on an auto-width field, stores
`calculateTextWidth` of the live preview row's value for the patched
field's label — provided that value is non-empty; when the binding's text
is empty or missing, the stored width is left at its patched value.  In
the designer (no data bound yet) the same triggers always store the width
measured on the design-time placeholder text. -/
theorem updateField_recompute_spec (m : MeasureFn) (data : List Row)
    (previewIndex : ℕ) (id : String) (updates : Patch) (field : TextField)
    (hid : field.id = id) :
    (∀ fields, updateFieldG m data previewIndex fields id updates
        = fields.map (updateOneG m data previewIndex id updates)) ∧
    (∀ row, updates.autoWidth = some true →
      data[previewIndex]? = some row →
      rowGet row (applyPatch field updates).label ≠ "" →
      (updateOneG m data previewIndex id updates field).width
        = calculateTextWidth m (rowGet row (applyPatch field updates).label)
            (applyPatch field updates).fontSize
            (applyPatch field updates).fontFamily) ∧
    (∀ row, (applyPatch field updates).autoWidth = true →
      (truthyQ updates.fontSize || truthyS updates.fontFamily
        || truthyS updates.label) = true →
      data[previewIndex]? = some row →
      rowGet row (applyPatch field updates).label ≠ "" →
      (updateOneG m data previewIndex id updates field).width
        = calculateTextWidth m (rowGet row (applyPatch field updates).label)
            (applyPatch field updates).fontSize
            (applyPatch field updates).fontFamily) ∧
    ((∀ row, data[previewIndex]? = some row →
        rowGet row (applyPatch field updates).label = "") →
      (updateOneG m data previewIndex id updates field).width
        = (applyPatch field updates).width) ∧
    (updates.autoWidth = some true →
      (updateOneD m id updates field).width
        = calculateTextWidth m
            (getDummyText (applyPatch field updates).label)
            (applyPatch field updates).fontSize
            (applyPatch field updates).fontFamily) ∧
    ((applyPatch field updates).autoWidth = true →
      (truthyQ updates.fontSize || truthyS updates.fontFamily
        || truthyS updates.label) = true →
      (updateOneD m id updates field).width
        = calculateTextWidth m
            (getDummyText (applyPatch field updates).label)
            (applyPatch field updates).fontSize
            (applyPatch field updates).fontFamily) ∧
    (∀ fields, updateFieldD m fields id updates
        = fields.map (updateOneD m id updates)) := by
  refine ⟨fun fields => rfl, ?_, ?_, ?_, ?_, ?_, fun fields => rfl⟩
  · intro row hw hrow hne
    unfold updateOneG
    rw [if_pos hid]
    have h1 : recompute1G m data previewIndex updates (applyPatch field updates)
        = setWidth (applyPatch field updates)
            (calculateTextWidth m (rowGet row (applyPatch field updates).label)
              (applyPatch field updates).fontSize
              (applyPatch field updates).fontFamily) := by
      unfold recompute1G
      rw [hw, hrow]
      simp [hne]
    rw [h1]
    cases htr : (truthyQ updates.fontSize || truthyS updates.fontFamily
        || truthyS updates.label) with
    | false =>
        rw [recompute2G_skip m data previewIndex updates _ htr, setWidth_width]
    | true =>
        have hau : (setWidth (applyPatch field updates)
            (calculateTextWidth m (rowGet row (applyPatch field updates).label)
              (applyPatch field updates).fontSize
              (applyPatch field updates).fontFamily)).autoWidth = true := by
          rw [setWidth_autoWidth]
          exact applyPatch_autoWidth_true field updates hw
        have hne2 : rowGet row (setWidth (applyPatch field updates)
            (calculateTextWidth m (rowGet row (applyPatch field updates).label)
              (applyPatch field updates).fontSize
              (applyPatch field updates).fontFamily)).label ≠ "" := by
          rw [setWidth_label]
          exact hne
        rw [recompute2G_fires m data previewIndex updates _ row hau htr hrow hne2]
        simp
  · intro row hau htr hrow hne
    unfold updateOneG
    rw [if_pos hid]
    rcases recompute1G_cases m data previewIndex updates
        (applyPatch field updates) with h1 | ⟨w, h1⟩ <;> rw [h1]
    · rw [recompute2G_fires m data previewIndex updates _ row hau htr hrow hne,
        setWidth_width]
    · have hau2 : (setWidth (applyPatch field updates) w).autoWidth = true := by
        rw [setWidth_autoWidth]
        exact hau
      have hne2 : rowGet row (setWidth (applyPatch field updates) w).label
          ≠ "" := by
        rw [setWidth_label]
        exact hne
      rw [recompute2G_fires m data previewIndex updates _ row hau2 htr hrow hne2]
      simp
  · intro hempty
    unfold updateOneG
    rw [if_pos hid, recompute1G_empty m data previewIndex updates _ hempty,
      recompute2G_empty m data previewIndex updates _ hempty]
  · intro hw
    unfold updateOneD
    rw [if_pos hid]
    have h1 : recompute1D m updates (applyPatch field updates)
        = setWidth (applyPatch field updates)
            (calculateTextWidth m
              (getDummyText (applyPatch field updates).label)
              (applyPatch field updates).fontSize
              (applyPatch field updates).fontFamily) := by
      unfold recompute1D
      rw [hw]
      simp
    rw [h1]
    rcases recompute2D_cases m updates (setWidth (applyPatch field updates)
        (calculateTextWidth m (getDummyText (applyPatch field updates).label)
          (applyPatch field updates).fontSize
          (applyPatch field updates).fontFamily)) with h2 | h2 <;> rw [h2] <;>
      simp
  · intro hau htr
    unfold updateOneD
    rw [if_pos hid]
    rcases recompute1D_cases m updates (applyPatch field updates)
        with h1 | ⟨w, h1⟩ <;> rw [h1]
    · rw [recompute2D_fires m updates _ hau htr, setWidth_width]
    · have hau2 : (setWidth (applyPatch field updates) w).autoWidth = true := by
        rw [setWidth_autoWidth]
        exact hau
      rw [recompute2D_fires m updates _ hau2 htr]
      simp

/-- C3 witness: enabling `autoWidth` on `fieldName` (label `Name`) while
the preview row binds `Name` to the non-empty `Ann` stores the measured
width `⌈42⌉ + 20 = 62` under the constant-42 measurement; the designer
does the same using the placeholder text. -/
theorem updateField_recompute_spec_witness :
    (updateOneG m42 [rowAnn] 0 "f1" (patchAutoWidth true) fieldName).width
      = 62 ∧
    (updateOneD m42 "f1" (patchAutoWidth true) fieldName).width = 62 := by
  have h := updateField_recompute_spec m42 [rowAnn] 0 "f1"
    (patchAutoWidth true) fieldName rfl
  have hg := h.2.1 rowAnn rfl rfl (by decide)
  have hd := h.2.2.2.2.1 rfl
  constructor
  · rw [hg]
    show ((⌈(42 : ℚ)⌉ : ℤ) : ℚ) + 20 = 62
    norm_num
  · rw [hd]
    show ((⌈(42 : ℚ)⌉ : ℤ) : ℚ) + 20 = 62
    norm_num

end Certifii

namespace Certifii

/-- The client-space bounding rectangle of the rendered canvas or image
element (`getBoundingClientRect()`). -/
structure Rect where
  left : ℚ
  top : ℚ
  width : ℚ
  height : ℚ
deriving DecidableEq, Repr

/-- The display-to-template transform used by both `handleMouseMove`
implementations: `relative = (client - rect.topLeft) * (native / rect)`. -/
def toTemplateSpace (p : ℚ × ℚ) (rect : Rect) (nativeW nativeH : ℚ) :
    ℚ × ℚ :=
  ((p.1 - rect.left) * (nativeW / rect.width),
   (p.2 - rect.top) * (nativeH / rect.height))

/-- The template-to-display transform of `renderEditOverlay` (and the
designer's overlay): an overlay box for a field is positioned at
`field.x * (rect.width / canvas.width)` inside a container whose origin
coincides with the canvas's client top-left corner, so its client-space
position is `rect.topLeft + template * (rect / native)`. -/
def toDisplaySpace (t : ℚ × ℚ) (rect : Rect) (nativeW nativeH : ℚ) :
    ℚ × ℚ :=
  (rect.left + t.1 * (rect.width / nativeW),
   rect.top + t.2 * (rect.height / nativeH))

/-- The position computed by `handleMouseMove` while dragging: the
pointer's template-space position minus the drag offset, with `x` clamped
to `[0, templateWidth - 50]` and `y` clamped to `[0, templateHeight - 20]`
(`Math.max(0, Math.min(template.width - 50, relativeX - dragOffset.x))`). -/
def dragPosition (template : Template) (rect : Rect)
    (client dragOffset : ℚ × ℚ) : ℚ × ℚ :=
  (max 0 (min (template.width - 50)
      ((toTemplateSpace client rect template.width template.height).1
        - dragOffset.1)),
   max 0 (min (template.height - 20)
      ((toTemplateSpace client rect template.width template.height).2
        - dragOffset.2)))

/-- C4: every drag move clamps the offset-corrected pointer position to
`[0, templateWidth - 50] × [0, templateHeight - 20]`, so the resulting
position always lies inside `[0, templateWidth] × [0, templateHeight]`
(for non-negative template dimensions), and applying the resulting
`{x, y}` patch through `updateField` stores exactly that position. -/
theorem handleMouseMove_clamp (template : Template) (rect : Rect)
    (client dragOffset : ℚ × ℚ) :
    (dragPosition template rect client dragOffset).1
      = max 0 (min (template.width - 50)
          ((toTemplateSpace client rect template.width template.height).1
            - dragOffset.1)) ∧
    (dragPosition template rect client dragOffset).2
      = max 0 (min (template.height - 20)
          ((toTemplateSpace client rect template.width template.height).2
            - dragOffset.2)) ∧
    (0 ≤ template.width →
      0 ≤ (dragPosition template rect client dragOffset).1 ∧
      (dragPosition template rect client dragOffset).1 ≤ template.width) ∧
    (0 ≤ template.height →
      0 ≤ (dragPosition template rect client dragOffset).2 ∧
      (dragPosition template rect client dragOffset).2 ≤ template.height) ∧
    (∀ (m : MeasureFn) (data : List Row) (previewIndex : ℕ) (id : String)
        (field : TextField), field.id = id →
      (updateOneG m data previewIndex id
          (patchXY (dragPosition template rect client dragOffset).1
            (dragPosition template rect client dragOffset).2) field).x
        = (dragPosition template rect client dragOffset).1 ∧
      (updateOneG m data previewIndex id
          (patchXY (dragPosition template rect client dragOffset).1
            (dragPosition template rect client dragOffset).2) field).y
        = (dragPosition template rect client dragOffset).2) := by
  refine ⟨rfl, rfl, ?_, ?_, ?_⟩
  · intro h
    constructor
    · exact le_max_left 0 _
    · apply max_le h
      calc min (template.width - 50)
            ((toTemplateSpace client rect template.width template.height).1
              - dragOffset.1)
          ≤ template.width - 50 := min_le_left _ _
        _ ≤ template.width := by linarith
  · intro h
    constructor
    · exact le_max_left 0 _
    · apply max_le h
      calc min (template.height - 20)
            ((toTemplateSpace client rect template.width template.height).2
              - dragOffset.2)
          ≤ template.height - 20 := min_le_left _ _
        _ ≤ template.height := by linarith
  · intro m data previewIndex id field hid
    unfold updateOneG
    rw [if_pos hid]
    have h2 : ∀ u : TextField, recompute2G m data previewIndex
        (patchXY (dragPosition template rect client dragOffset).1
          (dragPosition template rect client dragOffset).2) u = u := by
      intro u
      apply recompute2G_skip
      rfl
    have h1 : recompute1G m data previewIndex
        (patchXY (dragPosition template rect client dragOffset).1
          (dragPosition template rect client dragOffset).2)
        (applyPatch field
          (patchXY (dragPosition template rect client dragOffset).1
            (dragPosition template rect client dragOffset).2))
        = applyPatch field
            (patchXY (dragPosition template rect client dragOffset).1
              (dragPosition template rect client dragOffset).2) := by
      unfold recompute1G
      rfl
    rw [h2, h1]
    constructor <;> rfl

/-- C4 witness: on a 1000 × 600 template displayed in a 500 × 300 box at
client position (10, 10), a pointer far to the right with zero drag offset
clamps to `x = 950 = 1000 - 50`, and a pointer above the canvas clamps to
`y = 0`; both coordinates stay inside the template bounds and the `{x,y}`
patch stores them verbatim. -/
theorem handleMouseMove_clamp_witness :
    (dragPosition ⟨1000, 600⟩ ⟨10, 10, 500, 300⟩ (2000, 0) (0, 0)).1 = 950 ∧
    (dragPosition ⟨1000, 600⟩ ⟨10, 10, 500, 300⟩ (2000, 0) (0, 0)).2 = 0 ∧
    0 ≤ (dragPosition ⟨1000, 600⟩ ⟨10, 10, 500, 300⟩ (2000, 0) (0, 0)).1 ∧
    (dragPosition ⟨1000, 600⟩ ⟨10, 10, 500, 300⟩ (2000, 0) (0, 0)).1 ≤ 1000 ∧
    (updateOneG m42 [rowAnn] 0 "f1"
        (patchXY (dragPosition ⟨1000, 600⟩ ⟨10, 10, 500, 300⟩ (2000, 0)
            (0, 0)).1
          (dragPosition ⟨1000, 600⟩ ⟨10, 10, 500, 300⟩ (2000, 0) (0, 0)).2)
        fieldName).x = (dragPosition ⟨1000, 600⟩ ⟨10, 10, 500, 300⟩ (2000, 0)
          (0, 0)).1 := by
  have h := handleMouseMove_clamp ⟨1000, 600⟩ ⟨10, 10, 500, 300⟩ (2000, 0)
    (0, 0)
  have hb := h.2.2.1 (by norm_num)
  have hx : (dragPosition ⟨1000, 600⟩ ⟨10, 10, 500, 300⟩ (2000, 0) (0, 0)).1
      = 950 := by
    rw [h.1]
    norm_num [toTemplateSpace, min_def, max_def]
  have hy : (dragPosition ⟨1000, 600⟩ ⟨10, 10, 500, 300⟩ (2000, 0) (0, 0)).2
      = 0 := by
    rw [h.2.1]
    norm_num [toTemplateSpace, min_def, max_def]
  refine ⟨hx, hy, hb.1, by rw [hx]; norm_num,
    (h.2.2.2.2 m42 [rowAnn] 0 "f1" fieldName rfl).1⟩

/-- C5: the display-to-template transform composed with the
template-to-display transform is the identity on client-space points, for
any display rectangle and native size with non-zero dimensions (exact over
the rationals, hence within floating-point tolerance in the browser). -/
theorem transform_roundtrip (p : ℚ × ℚ) (rect : Rect) (nativeW nativeH : ℚ)
    (hw : rect.width ≠ 0) (hh : rect.height ≠ 0)
    (hnw : nativeW ≠ 0) (hnh : nativeH ≠ 0) :
    toDisplaySpace (toTemplateSpace p rect nativeW nativeH) rect
      nativeW nativeH = p := by
  unfold toDisplaySpace toTemplateSpace
  apply Prod.ext <;> dsimp only
  · field_simp
  · field_simp

/-- C5 witness: the round trip at the concrete point (55, 60) with display
rect (10, 20, 500, 300) and native size 1000 × 600. -/
theorem transform_roundtrip_witness :
    toDisplaySpace (toTemplateSpace (55, 60) ⟨10, 20, 500, 300⟩ 1000 600)
      ⟨10, 20, 500, 300⟩ 1000 600 = (55, 60) :=
  transform_roundtrip (55, 60) ⟨10, 20, 500, 300⟩ 1000 600
    (by norm_num) (by norm_num) (by norm_num) (by norm_num)

end Certifii

namespace Certifii

/-- A single `ctx.fillText` invocation recorded with the font, color and
alignment state set on the context when it runs. -/
structure TextDraw where
  text : String
  x : ℚ
  y : ℚ
  fontSize : ℚ
  fontFamily : String
  color : String
  align : Align
deriving DecidableEq, Repr

/-- The raster surface produced by one render: the canvas dimensions (set
to the template's native size) and the sequence of text draws performed on
it, in field order, after the template image is painted at (0,0). -/
structure Surface where
  width : ℚ
  height : ℚ
  draws : List TextDraw
deriving DecidableEq, Repr

/-- The per-field body of the draw loop in `generateCertificateImage`:
resolve the bound text, compute the effective width and the anchor, and
record the draw. -/
def drawField (m : MeasureFn) (row : Row) (field : TextField) : TextDraw :=
  ⟨rowGet row field.label,
   anchorXExport field (getEffectiveWidth m field (some row)),
   anchorYExport field,
   field.fontSize, field.fontFamily, field.color, field.align⟩

/-- `generateCertificateImage`: allocate a canvas of the template's native
size, draw the template, then draw every field's bound text. -/
def generateCertificateImage (m : MeasureFn) (template : Template)
    (fields : List TextField) (row : Row) : Surface :=
  ⟨template.width, template.height, fields.map (drawField m row)⟩

/-- The character class kept by the filename sanitizer
`fileName.replace(/[^a-zA-Z0-9-_]/g, "_")`. -/
def isSafeChar (c : Char) : Bool :=
  (('a' ≤ c) && (c ≤ 'z')) || (('A' ≤ c) && (c ≤ 'Z'))
    || (('0' ≤ c) && (c ≤ '9')) || (c == '-') || (c == '_')

/-- The filename sanitizer: every character outside `[a-zA-Z0-9-_]` is
replaced by an underscore. -/
def sanitizeFileName (s : String) : String :=
  String.mk (s.data.map (fun c => if isSafeChar c then c else '_'))

/-- The archive entry name computed for row `i` inside
`generateAllCertificates`: the first field's bound value when non-empty
(a missing first field reads as the empty string, as does a missing or
empty cell), otherwise the ordinal fallback `certificate-(i+1)`; the
result is sanitized and suffixed with `.png`. -/
def entryName (firstLabel : Option String) (row : Row) (i : ℕ) : String :=
  let fileName :=
    match firstLabel with
    | some lbl => rowGet row lbl
    | none => ""
  let fileName :=
    if fileName = "" then "certificate-" ++ toString (i + 1) else fileName
  sanitizeFileName fileName ++ ".png"

/-- Modelled from the spec: the archive builder (the external JSZip
library, not part of this repository's sources).  `zip.file(name, blob)`
keys entries by name, so adding an entry under an existing name replaces
it — the "last-wins overwrite in an archive" the spec records as the
observed behavior. -/
def zipFile {β : Type} (entries : List (String × β)) (name : String)
    (blob : β) : List (String × β) :=
  if entries.any (fun e => e.1 = name) then
    entries.map (fun e => if e.1 = name then (name, blob) else e)
  else entries ++ [(name, blob)]

/-- The sequential per-row loop of `generateAllCertificates`: render the
row (an awaited step that either yields a surface or fails the whole
call), name the output, add it to the archive, and continue with the next
row.  A failed render propagates immediately: no later row is visited and
no archive is returned. -/
def generateAllAux {ε β : Type} (render : Row → Except ε β)
    (firstLabel : Option String) :
    List Row → ℕ → List (String × β) → Except ε (List (String × β))
  | [], _, acc => Except.ok acc
  | row :: rest, i, acc =>
      match render row with
      | Except.error e => Except.error e
      | Except.ok blob =>
          generateAllAux render firstLabel rest (i + 1)
            (zipFile acc (entryName firstLabel row i) blob)

/-- `generateAllCertificates`: process the data rows in collection order,
naming entries after the first field's bound value. -/
def generateAllCertificates {ε β : Type} (render : Row → Except ε β)
    (fields : List TextField) (data : List Row) :
    Except ε (List (String × β)) :=
  generateAllAux render ((fields.head?).map TextField.label) data 0 []

/-- The entry names an export of `data` starting at ordinal `i` produces,
in row order. -/
def exportNames (firstLabel : Option String) : List Row → ℕ → List String
  | [], _ => []
  | row :: rest, i => entryName firstLabel row i :: exportNames firstLabel rest (i + 1)

/-- The archive entries an export of `data` starting at ordinal `i`
produces when every render succeeds and no names collide. -/
def exportEntries {β : Type} (g : Row → β) (firstLabel : Option String) :
    List Row → ℕ → List (String × β)
  | [], _ => []
  | row :: rest, i =>
      (entryName firstLabel row i, g row)
        :: exportEntries g firstLabel rest (i + 1)

end Certifii

namespace Certifii

theorem zipFile_notMem {β : Type} (entries : List (String × β)) (name : String)
    (blob : β) (h : ∀ e ∈ entries, e.1 ≠ name) :
    zipFile entries name blob = entries ++ [(name, blob)] := by
  unfold zipFile
  split
  · next hany =>
      exfalso
      simp only [List.any_eq_true, decide_eq_true_eq] at hany
      obtain ⟨e, he, heq⟩ := hany
      exact h e he heq
  · rfl

theorem generateAllAux_ok {ε β : Type} (g : Row → β) (fl : Option String)
    (data : List Row) : ∀ (i : ℕ) (acc : List (String × β)),
    (∀ e ∈ acc, e.1 ∉ exportNames fl data i) →
    (exportNames fl data i).Nodup →
    generateAllAux (fun row => (Except.ok (g row) : Except ε β)) fl data i acc
      = Except.ok (acc ++ exportEntries g fl data i) := by
  induction data with
  | nil =>
      intro i acc _ _
      simp [generateAllAux, exportEntries]
  | cons row rest ih =>
      intro i acc hdisj hnodup
      have hcons : exportNames fl (row :: rest) i
          = entryName fl row i :: exportNames fl rest (i + 1) := rfl
      rw [hcons] at hdisj hnodup
      obtain ⟨hhead, htail⟩ := List.nodup_cons.mp hnodup
      have hstep : generateAllAux (fun row => (Except.ok (g row) : Except ε β))
          fl (row :: rest) i acc
          = generateAllAux (fun row => (Except.ok (g row) : Except ε β)) fl
              rest (i + 1) (zipFile acc (entryName fl row i) (g row)) := rfl
      rw [hstep]
      have hzip : zipFile acc (entryName fl row i) (g row)
          = acc ++ [(entryName fl row i, g row)] := by
        apply zipFile_notMem
        intro e he
        have hmem := hdisj e he
        simp only [List.mem_cons, not_or] at hmem
        exact hmem.1
      rw [hzip]
      rw [ih (i + 1) (acc ++ [(entryName fl row i, g row)]) ?_ htail]
      · simp [exportEntries]
      · intro e he
        rcases List.mem_append.mp he with h1 | h2
        · have hmem := hdisj e h1
          simp only [List.mem_cons, not_or] at hmem
          exact hmem.2
        · simp only [List.mem_singleton] at h2
          rw [h2]
          exact hhead

theorem exportEntries_length {β : Type} (g : Row → β) (fl : Option String)
    (data : List Row) : ∀ i : ℕ,
    (exportEntries g fl data i).length = data.length := by
  induction data with
  | nil => intro i; rfl
  | cons row rest ih =>
      intro i
      simp [exportEntries, ih (i + 1)]

theorem exportEntries_get {β : Type} (g : Row → β) (fl : Option String)
    (data : List Row) : ∀ (i j : ℕ),
    (exportEntries g fl data i)[j]?
      = (data[j]?).map (fun row => (entryName fl row (i + j), g row)) := by
  induction data with
  | nil => intro i j; simp [exportEntries]
  | cons row rest ih =>
      intro i j
      cases j with
      | zero => simp [exportEntries]
      | succ j =>
          have harith : i + 1 + j = i + (j + 1) := by omega
          simp only [exportEntries, List.getElem?_cons_succ]
          rw [ih (i + 1) j, harith]

end Certifii

namespace Certifii

/-- A data row binding the `Name` column to `Beatrice Montgomery`. -/
def rowBea : Row := [("Name", "Beatrice Montgomery")]

/-- A renderer that succeeds on every row with a unit blob, for exercising
the archive-naming logic in isolation. -/
def renderOk : Row → Except String Unit := fun _ => Except.ok ()

/-- C7 counterexample: two rows whose first-field values sanitize to the
same filename do NOT yield one archive entry per row — the second entry
overwrites the first (last-wins), so exporting the two rows
`[{Name:"Ann"}, {Name:"Ann"}]` yields an archive with a single entry. -/
theorem generateAll_collision_counterexample :
    generateAllCertificates renderOk [fieldName] [rowAnn, rowAnn]
      = Except.ok [("Ann.png", ())] ∧
    ([rowAnn, rowAnn] : List Row).length = 2 ∧
    ([(("Ann.png" : String), ())] : List (String × Unit)).length = 1 ∧
    (1 : ℕ) ≠ 2 :=
  ⟨rfl, rfl, rfl, by decide⟩

/-- C7 (amended): batch export processes rows in collection order; when
the per-row names are pairwise distinct it produces exactly one archive
entry per row, in order, the `j`-th named after the `j`-th row; each name
is the first field's bound value sanitized to `[a-zA-Z0-9-_]` when that
value is non-empty, and the sanitized ordinal fallback `certificate-(j+1)`
when the value is empty or missing (rows whose names collide instead
overwrite the earlier entry, per the counterexample). -/
theorem generateAll_spec {ε β : Type} (g : Row → β) (fields : List TextField)
    (data : List Row)
    (hnodup : (exportNames ((fields.head?).map TextField.label) data 0).Nodup) :
    generateAllCertificates (fun row => (Except.ok (g row) : Except ε β))
        fields data
      = Except.ok (exportEntries g ((fields.head?).map TextField.label) data 0) ∧
    (exportEntries g ((fields.head?).map TextField.label) data 0).length
      = data.length ∧
    (∀ (j : ℕ) (row : Row), data[j]? = some row →
      (exportEntries g ((fields.head?).map TextField.label) data 0)[j]?
        = some (entryName ((fields.head?).map TextField.label) row j, g row)) ∧
    (∀ (fl : Option String) (row : Row) (i : ℕ) (lbl : String),
      (fl = some lbl → rowGet row lbl ≠ "" →
        entryName fl row i = sanitizeFileName (rowGet row lbl) ++ ".png") ∧
      (fl = some lbl → rowGet row lbl = "" →
        entryName fl row i
          = sanitizeFileName ("certificate-" ++ toString (i + 1)) ++ ".png") ∧
      (fl = none →
        entryName fl row i
          = sanitizeFileName ("certificate-" ++ toString (i + 1)) ++ ".png")) := by
  refine ⟨?_, exportEntries_length g _ data 0, ?_, ?_⟩
  · unfold generateAllCertificates
    rw [generateAllAux_ok g ((fields.head?).map TextField.label) data 0 []
      (by intro e he; cases he) hnodup]
    rfl
  · intro j row hj
    rw [exportEntries_get g ((fields.head?).map TextField.label) data 0 j, hj]
    simp
  · intro fl row i lbl
    refine ⟨?_, ?_, ?_⟩
    · intro hfl hne
      simp [entryName, hfl, hne]
    · intro hfl he
      simp [entryName, hfl, he]
    · intro hfl
      simp [entryName, hfl]

/-- C7 witness: exporting the rows `Ann` and `Beatrice Montgomery`
(distinct sanitized names) produces exactly the two entries `Ann.png` and
`Beatrice_Montgomery.png`, in row order. -/
theorem generateAll_spec_witness :
    generateAllCertificates (fun _ => (Except.ok () : Except String Unit))
        [fieldName] [rowAnn, rowBea]
      = Except.ok [("Ann.png", ()), ("Beatrice_Montgomery.png", ())] ∧
    ([("Ann.png", ()), ("Beatrice_Montgomery.png", ())]
      : List (String × Unit)).length = ([rowAnn, rowBea] : List Row).length := by
  have h := @generateAll_spec String Unit (fun _ => ()) [fieldName]
    [rowAnn, rowBea] (by decide)
  exact ⟨h.1.trans rfl, rfl⟩

end Certifii

namespace Certifii

/-- A data row whose render is made to fail (`Name` bound to `bad`). -/
def rowBad : Row := [("Name", "bad")]

/-- A data row whose render succeeds (`Name` bound to `Good`). -/
def rowGood : Row := [("Name", "Good")]

/-- A renderer that fails exactly on rows whose `Name` value is `bad`,
reproducing a per-row render failure during batch export. -/
def renderFailBad : Row → Except String Unit := fun r =>
  if rowGet r "Name" = "bad" then Except.error "render failed"
  else Except.ok ()

/-- C9 (amended): a failing row aborts the whole batch export — the loop
stops at the first row whose render fails, the call returns that render's
own error, and no archive (not even a partial one) is produced.  The
result is completely independent of the rows after the failing one and of
the renderer's behavior on them: no later row is rendered. -/
theorem generateAll_abort {ε β : Type} (render : Row → Except ε β)
    (fields : List TextField) (pre : List Row) (bad : Row) (post : List Row)
    (e : ε)
    (hok : ∀ r ∈ pre, ∃ b, render r = Except.ok b)
    (hbad : render bad = Except.error e) :
    generateAllCertificates render fields (pre ++ bad :: post)
      = Except.error e ∧
    ∀ entries, generateAllCertificates render fields (pre ++ bad :: post)
      ≠ Except.ok entries := by
  have haux : ∀ (pre : List Row) (i : ℕ) (acc : List (String × β)),
      (∀ r ∈ pre, ∃ b, render r = Except.ok b) →
      generateAllAux render ((fields.head?).map TextField.label)
          (pre ++ bad :: post) i acc
        = Except.error e := by
    intro pre
    induction pre with
    | nil =>
        intro i acc _
        show (match render bad with
          | Except.error e => Except.error e
          | Except.ok blob =>
              generateAllAux render ((fields.head?).map TextField.label) post
                (i + 1)
                (zipFile acc
                  (entryName ((fields.head?).map TextField.label) bad i)
                  blob)) = Except.error e
        rw [hbad]
    | cons r rest ih =>
        intro i acc hok2
        obtain ⟨b, hb⟩ := hok2 r (List.mem_cons_self r rest)
        show (match render r with
          | Except.error e => Except.error e
          | Except.ok blob =>
              generateAllAux render ((fields.head?).map TextField.label)
                (rest ++ bad :: post) (i + 1)
                (zipFile acc
                  (entryName ((fields.head?).map TextField.label) r i)
                  blob)) = Except.error e
        rw [hb]
        exact ih (i + 1) _ fun r2 h2 => hok2 r2 (List.mem_cons_of_mem r h2)
  have h1 := haux pre 0 [] hok
  refine ⟨h1, ?_⟩
  intro entries hcon
  rw [generateAllCertificates] at hcon
  rw [haux pre 0 [] hok] at hcon
  exact Except.noConfusion hcon

/-- C9 witness: with the second of three rows failing, the export returns
the render's error and no archive. -/
theorem generateAll_abort_witness :
    generateAllCertificates renderFailBad [fieldName] [rowGood, rowBad, rowGood]
      = Except.error "render failed" ∧
    ∀ entries, generateAllCertificates renderFailBad [fieldName]
      [rowGood, rowBad, rowGood] ≠ Except.ok entries := by
  have h := generateAll_abort renderFailBad [fieldName] [rowGood] rowBad
    [rowGood] "render failed" ?_ rfl
  · exact h
  · intro r hr
    have : r = rowGood := by simpa using hr
    rw [this]
    exact ⟨(), rfl⟩

/-- C9 counterexample: the caller is NOT told which row index failed.
Two exports whose first failing rows sit at different indices (0 in the
first, 1 in the second — the failing row is preceded by a successful one)
return byte-identical results, so the surfaced error identifies no row
index. -/
theorem generateAll_abort_counterexample :
    generateAllCertificates renderFailBad [fieldName] [rowBad, rowGood]
      = Except.error "render failed" ∧
    generateAllCertificates renderFailBad [fieldName] [rowGood, rowBad]
      = Except.error "render failed" ∧
    renderFailBad rowBad = Except.error "render failed" ∧
    renderFailBad rowGood = Except.ok () ∧
    generateAllCertificates renderFailBad [fieldName] [rowBad, rowGood]
      = generateAllCertificates renderFailBad [fieldName] [rowGood, rowBad] :=
  ⟨rfl, rfl, rfl, rfl, rfl⟩

end Certifii

namespace Certifii

/-- The template of the end-to-end scenario: 1000 × 600. -/
def template1000 : Template := ⟨1000, 600⟩

/-- C8 counterexample: in the end-to-end scenario (template 1000 × 600,
the centered 300-wide `Name` field at (100, 100) with height 40 and font
size 24), the text-draw anchor is `y = 100 + 40/2 + 24/3 = 128`, not the
claimed `y = 108`. -/
theorem export_scenario_counterexample :
    (generateCertificateImage mZero template1000 [fieldName] rowAnn).draws.map
        TextDraw.y = [128] ∧
    (generateCertificateImage mZero template1000 [fieldName] rowAnn).draws.map
        TextDraw.x = [250] ∧
    (128 : ℚ) ≠ 108 := by
  refine ⟨?_, ?_, by norm_num⟩ <;>
    simp [generateCertificateImage, drawField, anchorYExport, anchorXExport,
      getEffectiveWidth, fieldName, template1000] <;>
    norm_num

/-- C8 (amended): exporting the two rows `{Name:"Ann"}` and
`{Name:"Beatrice Montgomery"}` over the 1000 × 600 template with the
single centered 300-wide `Name` field produces an archive with exactly two
entries, each a 1000 × 600 surface, with both values drawn at the anchor
`x = 250, y = 128` (the `autoWidth:false` field ignores the text length,
so the long value overflows the box rather than moving the anchor). -/
theorem export_scenario_spec :
    generateAllCertificates
        (fun row => (Except.ok (generateCertificateImage mZero template1000
          [fieldName] row) : Except String Surface))
        [fieldName] [rowAnn, rowBea]
      = Except.ok
          [("Ann.png", ⟨1000, 600,
              [⟨"Ann", 250, 128, 24, "Arial", "#000000", Align.center⟩]⟩),
           ("Beatrice_Montgomery.png", ⟨1000, 600,
              [⟨"Beatrice Montgomery", 250, 128, 24, "Arial", "#000000",
                Align.center⟩]⟩)] := by
  have hAnn : generateCertificateImage mZero template1000 [fieldName] rowAnn
      = ⟨1000, 600, [⟨"Ann", 250, 128, 24, "Arial", "#000000",
          Align.center⟩]⟩ := by
    simp [generateCertificateImage, drawField, anchorXExport, anchorYExport,
      getEffectiveWidth, fieldName, template1000]
    norm_num
    decide
  have hBea : generateCertificateImage mZero template1000 [fieldName] rowBea
      = ⟨1000, 600, [⟨"Beatrice Montgomery", 250, 128, 24, "Arial",
          "#000000", Align.center⟩]⟩ := by
    simp [generateCertificateImage, drawField, anchorXExport, anchorYExport,
      getEffectiveWidth, fieldName, template1000]
    norm_num
    decide
  calc generateAllCertificates
        (fun row => (Except.ok (generateCertificateImage mZero template1000
          [fieldName] row) : Except String Surface))
        [fieldName] [rowAnn, rowBea]
      = Except.ok
          [("Ann.png",
            generateCertificateImage mZero template1000 [fieldName] rowAnn),
           ("Beatrice_Montgomery.png",
            generateCertificateImage mZero template1000 [fieldName] rowBea)] :=
        rfl
    _ = Except.ok
          [("Ann.png", ⟨1000, 600,
              [⟨"Ann", 250, 128, 24, "Arial", "#000000", Align.center⟩]⟩),
           ("Beatrice_Montgomery.png", ⟨1000, 600,
              [⟨"Beatrice Montgomery", 250, 128, 24, "Arial", "#000000",
                Align.center⟩]⟩)] := by rw [hAnn, hBea]

end Certifii
